import Mathlib

/-!
Verification of `websocket_sniper.py` (MEXC websocket sniper bot).

Python dictionaries (`SNIPE_LIST`, `active_orders`, JSON objects) are embedded
as association lists `List (String × α)` that preserve insertion order, with
`lookupA` / `setA` / `eraseA` mirroring `d[k]` / `d[k] = v` / `del d[k]`.
Prices and spend amounts are rationals.  External collaborators (the gateway
network call, the websocket transport) are parameters of the embedded
functions: `on_message` takes the gateway outcome as a boolean-valued oracle,
`place_market_order` takes the HTTP layer as a function from the built request
to an abstract response.
-/

namespace SniperBot

/-- Association-list lookup: the embedding of a Python dict read
(`d[k]` / `k in d`). -/
def lookupA {α : Type} : List (String × α) → String → Option α
  | [], _ => none
  | (k, v) :: rest, key => if k = key then some v else lookupA rest key

/-- Association-list write: the embedding of Python dict assignment
`d[k] = v` (updates in place if the key exists, else appends). -/
def setA {α : Type} : List (String × α) → String → α → List (String × α)
  | [], key, v => [(key, v)]
  | (k, w) :: rest, key, v =>
      if k = key then (key, v) :: rest else (k, w) :: setA rest key v

/-- Association-list delete: the embedding of Python `del d[k]`
(removes the first binding of the key). -/
def eraseA {α : Type} : List (String × α) → String → List (String × α)
  | [], _ => []
  | (k, w) :: rest, key => if k = key then rest else (k, w) :: eraseA rest key

/-- The mutable module-level state of `websocket_sniper.py` (lines 18-21):
`SNIPE_LIST` (symbol → target USDT spend), `active_orders`
(symbol → status string), and the `ws_connected` flag. -/
structure BotState where
  SNIPE_LIST : List (String × Rat)
  active_orders : List (String × String)
  ws_connected : Bool
deriving DecidableEq, Repr

/-- What the handler finds in the last-price field of the ticker payload
`stream_data.get('c', 0)` (line 110): the key may be absent, hold a
non-numeric string (so `float()` raises), or hold a numeric value. -/
inductive PriceField where
  | absent
  | nonNumeric
  | num (q : Rat)
deriving DecidableEq, Repr

/-- An inbound websocket frame as `on_message` (lines 95-133) classifies it:
`parseError` — `json.loads` raised; `noTickerStream` — parsed, but there is
no `stream` field containing `24hrTicker`; `fieldError` — a ticker-stream
frame whose `data` / `s` access raised; `ticker s c v` — a well-shaped
24hrTicker frame for symbol `s` with price field `c` and volume field `v`. -/
inductive InMsg where
  | parseError
  | noTickerStream
  | fieldError
  | ticker (s : String) (c : PriceField) (v : Option String)
deriving DecidableEq, Repr

/-- Python `float(stream_data.get('c', 0))` (line 110): an absent key
defaults to `0`; a non-numeric value raises (`none`), which the
surrounding `except` turns into a no-op. -/
def priceOf : PriceField → Option Rat
  | .absent => some 0
  | .nonNumeric => none
  | .num q => some q

/-- The visible effects of one handler invocation: the new global state, the
`place_market_order` calls issued (symbol, quote amount), and the snapshots
written to `snipe_config.json` by `save_snipe_list()`. -/
structure HandlerOut where
  state : BotState
  calls : List (String × Rat)
  saves : List (List (String × Rat))
deriving DecidableEq, Repr

/-- Lines 108-130 of `on_message`: the snipe-dispatch logic for a
well-shaped ticker frame.  `gw` is the gateway oracle standing for
the boolean result of `place_market_order`. -/
def handleTicker (gw : String → Rat → Bool) (st : BotState) (s : String)
    (c : PriceField) : HandlerOut :=
  match lookupA st.SNIPE_LIST s, lookupA st.active_orders s with
  | some amount, none =>
      match priceOf c with
      | none => ⟨st, [], []⟩
      | some p =>
          if 0 < p then
            let ao1 := setA st.active_orders s "executing"
            if gw s amount then
              let sl1 := eraseA st.SNIPE_LIST s
              ⟨⟨sl1, setA ao1 s "completed", st.ws_connected⟩, [(s, amount)], [sl1]⟩
            else
              ⟨⟨st.SNIPE_LIST, setA ao1 s "failed", st.ws_connected⟩, [(s, amount)], []⟩
          else ⟨st, [], []⟩
  | _, _ => ⟨st, [], []⟩

/-- The embedding of `on_message` (lines 95-133).  Every failure of parsing
or field access lands in the catch-all `except` of the handler, which only logs:
state untouched, no gateway call, no save. -/
def on_message (gw : String → Rat → Bool) (st : BotState) : InMsg → HandlerOut
  | .parseError => ⟨st, [], []⟩
  | .noTickerStream => ⟨st, [], []⟩
  | .fieldError => ⟨st, [], []⟩
  | .ticker s c _ => handleTicker gw st s c

/-- Sequential processing of a stream of inbound frames by `on_message`,
accumulating the gateway calls and config saves in order. -/
def runMsgs (gw : String → Rat → Bool) (st : BotState) : List InMsg → HandlerOut
  | [] => ⟨st, [], []⟩
  | m :: rest =>
      let h := on_message gw st m
      let r := runMsgs gw h.state rest
      ⟨r.state, h.calls ++ r.calls, h.saves ++ r.saves⟩

/-- Number of gateway calls issued for a given symbol. -/
def callsFor (s : String) (cs : List (String × Rat)) : Nat :=
  (cs.filter fun c => c.1 == s).length

theorem lookupA_setA_self {α : Type} (l : List (String × α)) (s : String) (v : α) :
    lookupA (setA l s v) s = some v := by
  induction l with
  | nil => simp [setA, lookupA]
  | cons p rest ih =>
      obtain ⟨k, w⟩ := p
      by_cases hk : k = s
      · simp [setA, hk, lookupA]
      · simp [setA, hk, lookupA, ih]

theorem lookupA_setA_ne {α : Type} (l : List (String × α)) (s t : String) (v : α)
    (h : t ≠ s) : lookupA (setA l s v) t = lookupA l t := by
  have hst : ¬ s = t := fun hh => h hh.symm
  induction l with
  | nil => simp [setA, lookupA, hst]
  | cons p rest ih =>
      obtain ⟨k, w⟩ := p
      by_cases hk : k = s
      · subst hk
        simp [setA, lookupA, hst]
      · simp [setA, hk, lookupA, ih]

theorem lookupA_eraseA_ne {α : Type} (l : List (String × α)) (s t : String)
    (h : t ≠ s) : lookupA (eraseA l s) t = lookupA l t := by
  have hst : ¬ s = t := fun hh => h hh.symm
  induction l with
  | nil => simp [eraseA]
  | cons p rest ih =>
      obtain ⟨k, w⟩ := p
      by_cases hk : k = s
      · subst hk
        simp [eraseA, lookupA, hst]
      · simp [eraseA, hk, lookupA, ih]

theorem lookupA_eq_none_of_not_mem {α : Type} (l : List (String × α)) (s : String)
    (h : s ∉ l.map Prod.fst) : lookupA l s = none := by
  induction l with
  | nil => simp [lookupA]
  | cons p rest ih =>
      obtain ⟨k, w⟩ := p
      simp only [List.map_cons, List.mem_cons] at h
      push_neg at h
      have hks : ¬ k = s := fun hh => h.1 hh.symm
      simp [lookupA, hks, ih h.2]

theorem lookupA_eraseA_self {α : Type} (l : List (String × α)) (s : String)
    (h : (l.map Prod.fst).Nodup) : lookupA (eraseA l s) s = none := by
  induction l with
  | nil => simp [eraseA, lookupA]
  | cons p rest ih =>
      obtain ⟨k, w⟩ := p
      simp only [List.map_cons, List.nodup_cons] at h
      by_cases hk : k = s
      · subst hk
        simpa [eraseA] using lookupA_eq_none_of_not_mem rest k h.1
      · simp [eraseA, hk, lookupA, ih h.2]

/-- A symbol already present in `active_orders` is never touched again by a
single handler invocation: its entries in both dicts keep their values and
no gateway call is issued for it (the line-108 guard filters it out; other
updates for other symbols are at other keys). -/
theorem claimed_msg (gw : String → Rat → Bool) (st : BotState) (m : InMsg)
    (s : String) (h : (lookupA st.active_orders s).isSome = true) :
    lookupA (on_message gw st m).state.active_orders s = lookupA st.active_orders s ∧
    lookupA (on_message gw st m).state.SNIPE_LIST s = lookupA st.SNIPE_LIST s ∧
    callsFor s (on_message gw st m).calls = 0 := by
  cases m with
  | parseError => simp [on_message, callsFor]
  | noTickerStream => simp [on_message, callsFor]
  | fieldError => simp [on_message, callsFor]
  | ticker t c v =>
      simp only [on_message, handleTicker]
      cases hsl : lookupA st.SNIPE_LIST t with
      | none => cases lookupA st.active_orders t <;> simp [callsFor]
      | some amount =>
          cases hao : lookupA st.active_orders t with
          | some w => simp [callsFor]
          | none =>
              have hts : t ≠ s := by
                intro he
                subst he
                rw [hao] at h
                simp at h
              have hst : s ≠ t := fun he => hts he.symm
              cases hc : priceOf c with
              | none => simp [callsFor]
              | some p =>
                  by_cases hp : 0 < p
                  · by_cases hgw : gw t amount = true
                    · simp [hp, hgw, callsFor, lookupA_setA_ne _ _ _ _ hst,
                        lookupA_eraseA_ne _ _ _ hst, hts]
                    · simp only [Bool.not_eq_true] at hgw
                      simp [hp, hgw, callsFor, lookupA_setA_ne _ _ _ _ hst, hts]
                  · simp [hp, callsFor]

theorem callsFor_append (s : String) (a b : List (String × Rat)) :
    callsFor s (a ++ b) = callsFor s a + callsFor s b := by
  simp [callsFor, List.filter_append]

/-- Once a symbol is claimed in `active_orders`, any further stream of
frames leaves both of its dict entries unchanged and issues no further
gateway call for it. -/
theorem claimed_run (gw : String → Rat → Bool) (st : BotState) (msgs : List InMsg)
    (s : String) (h : (lookupA st.active_orders s).isSome = true) :
    lookupA (runMsgs gw st msgs).state.active_orders s = lookupA st.active_orders s ∧
    lookupA (runMsgs gw st msgs).state.SNIPE_LIST s = lookupA st.SNIPE_LIST s ∧
    callsFor s (runMsgs gw st msgs).calls = 0 := by
  induction msgs generalizing st with
  | nil => simp [runMsgs, callsFor]
  | cons m rest ih =>
      obtain ⟨hao, hsl, hcalls⟩ := claimed_msg gw st m s h
      have h2 : (lookupA (on_message gw st m).state.active_orders s).isSome = true := by
        rw [hao]; exact h
      obtain ⟨iao, isl, icalls⟩ := ih (on_message gw st m).state h2
      simp only [runMsgs]
      exact ⟨iao.trans hao, isl.trans hsl,
        by rw [callsFor_append, hcalls, icalls]⟩

/-- A single handler invocation issues at most one gateway call in total,
hence at most one for any given symbol. -/
theorem msg_calls_le_one (gw : String → Rat → Bool) (st : BotState) (m : InMsg)
    (s : String) : callsFor s (on_message gw st m).calls ≤ 1 := by
  have hlen : ∀ cs : List (String × Rat), callsFor s cs ≤ cs.length := by
    intro cs
    simpa [callsFor] using List.length_filter_le _ cs
  cases m with
  | parseError => simp [on_message, callsFor]
  | noTickerStream => simp [on_message, callsFor]
  | fieldError => simp [on_message, callsFor]
  | ticker t c v =>
      simp only [on_message, handleTicker]
      cases lookupA st.SNIPE_LIST t with
      | none => cases lookupA st.active_orders t <;> simp [callsFor]
      | some amount =>
          cases lookupA st.active_orders t with
          | some w => simp [callsFor]
          | none =>
              cases priceOf c with
              | none => simp [callsFor]
              | some p =>
                  by_cases hp : 0 < p
                  · by_cases hgw : gw t amount = true
                    · simpa [hp, hgw] using hlen [(t, amount)]
                    · simp only [Bool.not_eq_true] at hgw
                      simpa [hp, hgw] using hlen [(t, amount)]
                  · simp [hp, callsFor]

/-- If a handler invocation issued a gateway call for `s`, then afterwards
`s` is recorded in `active_orders` (line 116 marks it before the call, and
lines 123/129 overwrite it with the final status). -/
theorem call_claims (gw : String → Rat → Bool) (st : BotState) (m : InMsg)
    (s : String) (h : 1 ≤ callsFor s (on_message gw st m).calls) :
    (lookupA (on_message gw st m).state.active_orders s).isSome = true := by
  cases m with
  | parseError => simp [on_message, callsFor] at h
  | noTickerStream => simp [on_message, callsFor] at h
  | fieldError => simp [on_message, callsFor] at h
  | ticker t c v =>
      simp only [on_message, handleTicker] at h ⊢
      cases hsl : lookupA st.SNIPE_LIST t with
      | none =>
          rw [hsl] at h
          cases lookupA st.active_orders t <;> simp [callsFor] at h
      | some amount =>
          rw [hsl] at h
          cases hao : lookupA st.active_orders t with
          | some w => rw [hao] at h; simp [callsFor] at h
          | none =>
              rw [hao] at h
              cases hc : priceOf c with
              | none => rw [hc] at h; simp [callsFor] at h
              | some p =>
                  rw [hc] at h
                  by_cases hp : 0 < p
                  · have hts : t = s := by
                      by_contra hne
                      by_cases hgw : gw t amount = true <;>
                        simp [hp, hgw, callsFor, hne] at h
                    subst hts
                    by_cases hgw : gw t amount = true
                    · simp [hp, hgw, lookupA_setA_self]
                    · simp only [Bool.not_eq_true] at hgw
                      simp [hp, hgw, lookupA_setA_self]
                  · simp [hp, callsFor] at h

/-- An eligible event fires: if `s` is watched, unclaimed, and the frame
carries a strictly positive numeric price, the handler issues exactly one
gateway call for `s` and claims `s` in `active_orders`. -/
theorem eligible_fires (gw : String → Rat → Bool) (st : BotState) (s : String)
    (amount q : Rat) (v : Option String)
    (hsl : lookupA st.SNIPE_LIST s = some amount)
    (hao : lookupA st.active_orders s = none) (hq : 0 < q) :
    callsFor s (on_message gw st (.ticker s (.num q) v)).calls = 1 ∧
    (lookupA (on_message gw st (.ticker s (.num q) v)).state.active_orders s).isSome
      = true := by
  simp only [on_message, handleTicker, priceOf, hsl, hao]
  by_cases hgw : gw s amount = true
  · simp [hq, hgw, callsFor, lookupA_setA_self]
  · simp only [Bool.not_eq_true] at hgw
    simp [hq, hgw, callsFor, lookupA_setA_self]

/-- Over any stream of frames, at most one gateway call is issued for any
given symbol. -/
theorem run_calls_le_one (gw : String → Rat → Bool) (st : BotState)
    (msgs : List InMsg) (s : String) :
    callsFor s (runMsgs gw st msgs).calls ≤ 1 := by
  induction msgs generalizing st with
  | nil => simp [runMsgs, callsFor]
  | cons m rest ih =>
      simp only [runMsgs, callsFor_append]
      by_cases hz : callsFor s (on_message gw st m).calls = 0
      · rw [hz]
        simpa using ih (on_message gw st m).state
      · have h1 : 1 ≤ callsFor s (on_message gw st m).calls := Nat.one_le_iff_ne_zero.mpr hz
        have hclaim := call_claims gw st m s h1
        have hrest := (claimed_run gw (on_message gw st m).state rest s hclaim).2.2
        rw [hrest]
        simpa using msg_calls_le_one gw st m s

/-- The price field of a ticker frame is exactly 0, negative, missing, or
non-numeric (the "not yet trading" shapes of line 110). -/
def badPrice : InMsg → Prop
  | .ticker _ .absent _ => True
  | .ticker _ .nonNumeric _ => True
  | .ticker _ (.num q) _ => q ≤ 0
  | _ => False

theorem badPrice_noop (gw : String → Rat → Bool) (st : BotState) (m : InMsg)
    (h : badPrice m) : on_message gw st m = ⟨st, [], []⟩ := by
  cases m with
  | parseError => exact absurd h not_false
  | noTickerStream => exact absurd h not_false
  | fieldError => exact absurd h not_false
  | ticker s c v =>
      simp only [on_message, handleTicker]
      cases lookupA st.SNIPE_LIST s with
      | none => cases lookupA st.active_orders s <;> simp
      | some amount =>
          cases lookupA st.active_orders s with
          | some w => simp
          | none =>
              cases c with
              | absent => simp [priceOf]
              | nonNumeric => simp [priceOf]
              | num q =>
                  have hq : ¬ 0 < q := not_lt.mpr h
                  simp [priceOf, hq]

/-- C1: over any sequence of ticker events processed by the message handler
from the initial process state (`active_orders` empty), at most one
`place_market_order` call is ever made for any symbol; and for any nonempty
sequence of duplicate/rapid ticker events for a watched symbol with strictly
positive price, exactly one gateway call is made for it. -/
theorem C1_at_most_one_order_per_symbol (gw : String → Rat → Bool)
    (L : List (String × Rat)) (b : Bool) (msgs : List InMsg) (s : String) :
    callsFor s (runMsgs gw ⟨L, [], b⟩ msgs).calls ≤ 1 ∧
    ((lookupA L s).isSome = true → msgs ≠ [] →
      (∀ m ∈ msgs, ∃ q v, m = InMsg.ticker s (PriceField.num q) v ∧ 0 < q) →
      callsFor s (runMsgs gw ⟨L, [], b⟩ msgs).calls = 1) := by
  refine ⟨run_calls_le_one gw ⟨L, [], b⟩ msgs s, ?_⟩
  intro hL hne hall
  cases msgs with
  | nil => exact absurd rfl hne
  | cons m rest =>
      obtain ⟨q, v, hm, hq⟩ := hall m (List.mem_cons_self m rest)
      subst hm
      obtain ⟨amount, hamount⟩ := Option.isSome_iff_exists.mp hL
      have hao : lookupA (⟨L, [], b⟩ : BotState).active_orders s = none := rfl
      obtain ⟨hone, hclaim⟩ :=
        eligible_fires gw ⟨L, [], b⟩ s amount q v hamount hao hq
      have hrest :=
        (claimed_run gw (on_message gw ⟨L, [], b⟩ (.ticker s (.num q) v)).state
          rest s hclaim).2.2
      simp only [runMsgs, callsFor_append]
      rw [hone, hrest]

/-- Witness for C1 at a concrete input: watch list `{ABCUSDT: 5}`, two rapid
positive-price ticks for ABCUSDT, gateway always succeeding. -/
theorem C1_witness :
    callsFor "ABCUSDT"
      (runMsgs (fun _ _ => true) ⟨[("ABCUSDT", 5)], [], false⟩
        [InMsg.ticker "ABCUSDT" (PriceField.num 1) none,
         InMsg.ticker "ABCUSDT" (PriceField.num 1) none]).calls = 1 :=
  (C1_at_most_one_order_per_symbol (fun _ _ => true) [("ABCUSDT", 5)] false
      [InMsg.ticker "ABCUSDT" (PriceField.num 1) none,
       InMsg.ticker "ABCUSDT" (PriceField.num 1) none] "ABCUSDT").2
    (by decide) (by decide)
    (by
      intro m hm
      rcases List.mem_cons.mp hm with h | h
      · exact ⟨1, none, h, one_pos⟩
      · rw [List.mem_singleton] at h
        exact ⟨1, none, h, one_pos⟩)

/-- C3: ticker events whose last-price field is exactly 0, negative, missing,
or non-numeric cause no gateway call and no state change, no matter how many
arrive: the run is the identity on the state with empty call and save logs. -/
theorem C3_nonpositive_price_is_noop (gw : String → Rat → Bool) (st : BotState)
    (msgs : List InMsg) (h : ∀ m ∈ msgs, badPrice m) :
    runMsgs gw st msgs = ⟨st, [], []⟩ := by
  induction msgs with
  | nil => rfl
  | cons m rest ih =>
      have hm := badPrice_noop gw st m (h m (List.mem_cons_self m rest))
      have hrest := ih fun x hx => h x (List.mem_cons_of_mem m hx)
      simp [runMsgs, hm, hrest]

/-- Witness for C3: a watched symbol receives a zero price, a missing price,
a non-numeric price, and a negative price; nothing happens. -/
theorem C3_witness :
    runMsgs (fun _ _ => true) ⟨[("ABCUSDT", 5)], [], true⟩
      [InMsg.ticker "ABCUSDT" (PriceField.num 0) none,
       InMsg.ticker "ABCUSDT" PriceField.absent none,
       InMsg.ticker "ABCUSDT" PriceField.nonNumeric none,
       InMsg.ticker "ABCUSDT" (PriceField.num (-3)) none]
      = ⟨⟨[("ABCUSDT", 5)], [], true⟩, [], []⟩ :=
  C3_nonpositive_price_is_noop (fun _ _ => true) ⟨[("ABCUSDT", 5)], [], true⟩ _
    (by
      intro m hm
      fin_cases hm <;> simp [badPrice])

/-- A symbol already claimed in `active_orders` makes any further ticker
event for it a complete no-op: the line-108 guard fails, so the handler
returns with the state untouched and neither a call nor a save issued. -/
theorem claimed_ticker_noop (gw : String → Rat → Bool) (st : BotState)
    (s : String) (c : PriceField) (v : Option String)
    (h : (lookupA st.active_orders s).isSome = true) :
    on_message gw st (.ticker s c v) = ⟨st, [], []⟩ := by
  obtain ⟨w, hw⟩ := Option.isSome_iff_exists.mp h
  simp only [on_message, handleTicker, hw]
  cases lookupA st.SNIPE_LIST s <;> rfl

/-- C4: a ticker event whose placement succeeds marks the symbol
`completed`, deletes it from the in-memory `SNIPE_LIST`, re-saves the full
remaining mapping to the config file, and renders every subsequent event
for that symbol inert: no further gateway call ever, and a later ticker
frame for it changes nothing. -/
theorem C4_success_removes_symbol (gw : String → Rat → Bool) (st : BotState)
    (s : String) (amount q : Rat) (v : Option String)
    (hsl : lookupA st.SNIPE_LIST s = some amount)
    (hnd : (st.SNIPE_LIST.map Prod.fst).Nodup)
    (hao : lookupA st.active_orders s = none)
    (hq : 0 < q) (hgw : gw s amount = true) :
    lookupA (on_message gw st (.ticker s (.num q) v)).state.active_orders s
      = some "completed" ∧
    lookupA (on_message gw st (.ticker s (.num q) v)).state.SNIPE_LIST s
      = none ∧
    (on_message gw st (.ticker s (.num q) v)).saves
      = [(on_message gw st (.ticker s (.num q) v)).state.SNIPE_LIST] ∧
    ∀ msgs : List InMsg,
      callsFor s
        (runMsgs gw (on_message gw st (.ticker s (.num q) v)).state msgs).calls
        = 0 ∧
      ∀ c2 v2, on_message gw
          (runMsgs gw (on_message gw st (.ticker s (.num q) v)).state msgs).state
          (.ticker s c2 v2)
        = ⟨(runMsgs gw (on_message gw st (.ticker s (.num q) v)).state msgs).state,
            [], []⟩ := by
  have hstep : on_message gw st (.ticker s (.num q) v) =
      ⟨⟨eraseA st.SNIPE_LIST s,
        setA (setA st.active_orders s "executing") s "completed",
        st.ws_connected⟩, [(s, amount)], [eraseA st.SNIPE_LIST s]⟩ := by
    simp [on_message, handleTicker, priceOf, hsl, hao, hq, hgw]
  rw [hstep]
  refine ⟨lookupA_setA_self _ _ _, lookupA_eraseA_self _ _ hnd, rfl, ?_⟩
  intro msgs
  have hclaim : (lookupA
      (setA (setA st.active_orders s "executing") s "completed") s).isSome
      = true := by
    rw [lookupA_setA_self]; rfl
  obtain ⟨hao2, _, hcalls⟩ := claimed_run gw
    ⟨eraseA st.SNIPE_LIST s,
      setA (setA st.active_orders s "executing") s "completed",
      st.ws_connected⟩ msgs s hclaim
  refine ⟨hcalls, ?_⟩
  intro c2 v2
  exact claimed_ticker_noop gw _ s c2 v2 (by rw [hao2]; exact hclaim)

/-- Witness for C4 at a concrete input: watch list `{ABCUSDT: 5}`, price
tick `2`, gateway succeeding; afterwards a further positive tick is inert. -/
theorem C4_witness :
    lookupA (on_message (fun _ _ => true) ⟨[("ABCUSDT", 5)], [], true⟩
        (.ticker "ABCUSDT" (.num 2) none)).state.active_orders "ABCUSDT"
      = some "completed" ∧
    lookupA (on_message (fun _ _ => true) ⟨[("ABCUSDT", 5)], [], true⟩
        (.ticker "ABCUSDT" (.num 2) none)).state.SNIPE_LIST "ABCUSDT"
      = none ∧
    callsFor "ABCUSDT"
      (runMsgs (fun _ _ => true)
        (on_message (fun _ _ => true) ⟨[("ABCUSDT", 5)], [], true⟩
          (.ticker "ABCUSDT" (.num 2) none)).state
        [InMsg.ticker "ABCUSDT" (PriceField.num 3) none]).calls = 0 := by
  have h := C4_success_removes_symbol (fun _ _ => true)
    ⟨[("ABCUSDT", 5)], [], true⟩ "ABCUSDT" 5 2 none
    (by decide) (by decide) rfl (by decide) rfl
  exact ⟨h.1, h.2.1, (h.2.2.2 [InMsg.ticker "ABCUSDT" (PriceField.num 3) none]).1⟩

/-- C5: a ticker event whose placement fails marks the symbol `failed`,
leaves the in-memory `SNIPE_LIST` completely unchanged (the symbol stays
present with its amount), writes nothing to the config file, and no
subsequent event ever triggers a second gateway call for that symbol. -/
theorem C5_failure_keeps_symbol (gw : String → Rat → Bool) (st : BotState)
    (s : String) (amount q : Rat) (v : Option String)
    (hsl : lookupA st.SNIPE_LIST s = some amount)
    (hao : lookupA st.active_orders s = none)
    (hq : 0 < q) (hgw : gw s amount = false) :
    lookupA (on_message gw st (.ticker s (.num q) v)).state.active_orders s
      = some "failed" ∧
    (on_message gw st (.ticker s (.num q) v)).state.SNIPE_LIST
      = st.SNIPE_LIST ∧
    lookupA (on_message gw st (.ticker s (.num q) v)).state.SNIPE_LIST s
      = some amount ∧
    (on_message gw st (.ticker s (.num q) v)).saves = [] ∧
    ∀ msgs : List InMsg,
      callsFor s
        (runMsgs gw (on_message gw st (.ticker s (.num q) v)).state msgs).calls
        = 0 := by
  have hstep : on_message gw st (.ticker s (.num q) v) =
      ⟨⟨st.SNIPE_LIST,
        setA (setA st.active_orders s "executing") s "failed",
        st.ws_connected⟩, [(s, amount)], []⟩ := by
    simp [on_message, handleTicker, priceOf, hsl, hao, hq, hgw]
  rw [hstep]
  refine ⟨lookupA_setA_self _ _ _, rfl, hsl, rfl, ?_⟩
  intro msgs
  have hclaim : (lookupA
      (setA (setA st.active_orders s "executing") s "failed") s).isSome
      = true := by
    rw [lookupA_setA_self]; rfl
  exact (claimed_run gw
    ⟨st.SNIPE_LIST, setA (setA st.active_orders s "executing") s "failed",
      st.ws_connected⟩ msgs s hclaim).2.2

/-- Witness for C5 at a concrete input: watch list `{DEFUSDT: 4}`, positive
tick, gateway failing; DEFUSDT stays listed, nothing is saved, and a later
tick produces no further call. -/
theorem C5_witness :
    lookupA (on_message (fun _ _ => false) ⟨[("DEFUSDT", 4)], [], true⟩
        (.ticker "DEFUSDT" (.num 1) none)).state.active_orders "DEFUSDT"
      = some "failed" ∧
    lookupA (on_message (fun _ _ => false) ⟨[("DEFUSDT", 4)], [], true⟩
        (.ticker "DEFUSDT" (.num 1) none)).state.SNIPE_LIST "DEFUSDT"
      = some 4 ∧
    (on_message (fun _ _ => false) ⟨[("DEFUSDT", 4)], [], true⟩
        (.ticker "DEFUSDT" (.num 1) none)).saves = [] ∧
    callsFor "DEFUSDT"
      (runMsgs (fun _ _ => false)
        (on_message (fun _ _ => false) ⟨[("DEFUSDT", 4)], [], true⟩
          (.ticker "DEFUSDT" (.num 1) none)).state
        [InMsg.ticker "DEFUSDT" (PriceField.num 9) none]).calls = 0 := by
  have h := C5_failure_keeps_symbol (fun _ _ => false)
    ⟨[("DEFUSDT", 4)], [], true⟩ "DEFUSDT" 4 1 none
    (by decide) rfl (by decide) rfl
  exact ⟨h.1, h.2.2.1, h.2.2.2.1,
    h.2.2.2.2 [InMsg.ticker "DEFUSDT" (PriceField.num 9) none]⟩

/-- C10: handling one ticker event for symbol `s` is frame-preserving for
every other symbol `t`: the `SNIPE_LIST` entry and the `active_orders` entry
of `t` are unchanged, whatever the outcome of the event. -/
theorem C10_other_symbols_untouched (gw : String → Rat → Bool) (st : BotState)
    (s : String) (c : PriceField) (v : Option String) (t : String)
    (hne : t ≠ s) :
    lookupA (on_message gw st (.ticker s c v)).state.SNIPE_LIST t
      = lookupA st.SNIPE_LIST t ∧
    lookupA (on_message gw st (.ticker s c v)).state.active_orders t
      = lookupA st.active_orders t := by
  simp only [on_message, handleTicker]
  cases lookupA st.SNIPE_LIST s with
  | none => cases lookupA st.active_orders s <;> simp
  | some amount =>
      cases lookupA st.active_orders s with
      | some w => simp
      | none =>
          cases priceOf c with
          | none => simp
          | some p =>
              by_cases hp : 0 < p
              · by_cases hgw : gw s amount = true
                · simp [hp, hgw, lookupA_setA_ne _ _ _ _ hne,
                    lookupA_eraseA_ne _ _ _ hne]
                · simp only [Bool.not_eq_true] at hgw
                  simp [hp, hgw, lookupA_setA_ne _ _ _ _ hne]
              · simp [hp]

/-- Witness for C10: a successful snipe of ABCUSDT leaves the XYZUSDT entries
in both dicts untouched. -/
theorem C10_witness :
    lookupA (on_message (fun _ _ => true)
        ⟨[("ABCUSDT", 5), ("XYZUSDT", 7)], [("XYZUSDT", "failed")], true⟩
        (.ticker "ABCUSDT" (.num 2) none)).state.SNIPE_LIST "XYZUSDT"
      = lookupA (⟨[("ABCUSDT", 5), ("XYZUSDT", 7)], [("XYZUSDT", "failed")],
          true⟩ : BotState).SNIPE_LIST "XYZUSDT" ∧
    lookupA (on_message (fun _ _ => true)
        ⟨[("ABCUSDT", 5), ("XYZUSDT", 7)], [("XYZUSDT", "failed")], true⟩
        (.ticker "ABCUSDT" (.num 2) none)).state.active_orders "XYZUSDT"
      = lookupA (⟨[("ABCUSDT", 5), ("XYZUSDT", 7)], [("XYZUSDT", "failed")],
          true⟩ : BotState).active_orders "XYZUSDT" :=
  C10_other_symbols_untouched (fun _ _ => true)
    ⟨[("ABCUSDT", 5), ("XYZUSDT", 7)], [("XYZUSDT", "failed")], true⟩
    "ABCUSDT" (.num 2) none "XYZUSDT" (by decide)

/-- A frame is malformed in the sense of the parse-error policy:
`json.loads` raised, the parsed object has no `stream` field containing
`24hrTicker`, the `data`/`s` field access raised, or the price field value
is non-numeric (so `float` raised). -/
def malformedMsg : InMsg → Prop
  | .parseError => True
  | .noTickerStream => True
  | .fieldError => True
  | .ticker _ .nonNumeric _ => True
  | .ticker _ _ _ => False

/-- C7: the message handler is total over arbitrary inbound frames, and on
every malformed frame it returns with no gateway call, no save, and the
global state — `SNIPE_LIST`, `active_orders`, and `ws_connected` —
exactly as it was (the catch-all `except` only logs). -/
theorem C7_malformed_is_noop (gw : String → Rat → Bool) (st : BotState)
    (m : InMsg) (h : malformedMsg m) :
    on_message gw st m = ⟨st, [], []⟩ := by
  cases m with
  | parseError => rfl
  | noTickerStream => rfl
  | fieldError => rfl
  | ticker s c v =>
      cases c with
      | absent => exact absurd h not_false
      | num q => exact absurd h not_false
      | nonNumeric =>
          simp only [on_message, handleTicker]
          cases lookupA st.SNIPE_LIST s with
          | none => cases lookupA st.active_orders s <;> rfl
          | some amount => cases lookupA st.active_orders s <;> rfl

/-- Witness for C7: a non-JSON frame and a ticker frame with a non-numeric
price both leave a concrete state untouched. -/
theorem C7_witness :
    on_message (fun _ _ => true) ⟨[("ABCUSDT", 5)], [], true⟩ InMsg.parseError
      = ⟨⟨[("ABCUSDT", 5)], [], true⟩, [], []⟩ ∧
    on_message (fun _ _ => true) ⟨[("ABCUSDT", 5)], [], true⟩
        (InMsg.ticker "ABCUSDT" PriceField.nonNumeric none)
      = ⟨⟨[("ABCUSDT", 5)], [], true⟩, [], []⟩ :=
  ⟨C7_malformed_is_noop (fun _ _ => true) ⟨[("ABCUSDT", 5)], [], true⟩
      InMsg.parseError trivial,
   C7_malformed_is_noop (fun _ _ => true) ⟨[("ABCUSDT", 5)], [], true⟩
      (InMsg.ticker "ABCUSDT" PriceField.nonNumeric none) trivial⟩

/-- How one `ws.run_forever()` invocation inside the `while True` loop of
`start_websocket.run_forever` (lines 181-188) can end: the call returned
normally (the transport closed or errored and the websocket library handed
control back — its close path runs the `on_close` callback of lines 138-142
and returns), or the call raised an exception, caught by the `except`. -/
inductive ConnOutcome where
  | returned
  | raised
deriving DecidableEq, Repr

/-- Effect of one iteration of the reconnect loop (lines 182-188). -/
structure LoopIter where
  reconnects : Bool
  backoff : Nat
deriving DecidableEq, Repr

/-- One iteration of `while True: try: ws.run_forever() except: log;
time.sleep(10)`: the loop body has no break or return, so it always
proceeds to another connection attempt; `time.sleep(10)` sits only in the
`except` branch, so only an iteration that ended in a raised exception
sleeps before reconnecting. -/
def run_forever_iter : ConnOutcome → LoopIter
  | .returned => ⟨true, 0⟩
  | .raised => ⟨true, 10⟩

/-- Counterexample to C2 as stated: an iteration in which the connection
call returns normally — the library path for an ordinary transport close,
the very disconnect the claim speaks of — reconnects immediately with a
backoff of 0 seconds, not 10. -/
theorem C2_counterexample :
    (run_forever_iter ConnOutcome.returned).reconnects = true ∧
    (run_forever_iter ConnOutcome.returned).backoff = 0 ∧
    ¬ (run_forever_iter ConnOutcome.returned).backoff = 10 := by decide

/-- C2 amended: the connection loop never terminates — every iteration is
followed by another connection attempt — and the fixed 10-second backoff is
applied exactly when the iteration ended in a raised exception; an
iteration whose connection call returned normally reconnects immediately
with no backoff. -/
theorem C2_amended_reconnect_policy (o : ConnOutcome) :
    (run_forever_iter o).reconnects = true ∧
    ((run_forever_iter o).backoff = 10 ↔ o = ConnOutcome.raised) := by
  cases o <;> decide

/-- Fixed REST base endpoint (line 16). -/
def BASE_URL : String := "https://api.mexc.com"

/-- The five request parameters of the market buy in the order the code
inserts them into the dict (lines 64-70); `urlencode` serializes them in
this same order.  Symbol, quantity and timestamp are taken already rendered
as the strings that appear in the query. -/
def orderBaseParams (symbol quantity timestamp : String) :
    List (String × String) :=
  [("symbol", symbol), ("side", "BUY"), ("type", "MARKET"),
   ("quoteOrderQty", quantity), ("timestamp", timestamp)]

/-- Python `urllib.parse.urlencode` on the parameter dict (line 73):
ampersand-joined `k=v` pairs in insertion order (none of these values needs
percent-escaping). -/
def urlencode (ps : List (String × String)) : String :=
  String.intercalate "&" (ps.map fun p => p.1 ++ "=" ++ p.2)

/-- The HTTP request assembled by `place_market_order` (lines 61-81): URL,
query parameters with the signature appended (line 75), the API-key header
(line 77), and the `timeout=10` passed to `requests.post` (line 81). -/
structure OrderRequest where
  url : String
  params : List (String × String)
  headerApiKey : String
  timeout : Nat

/-- The signed request of lines 62-81.  `sign` abstracts
`hmac.new(secret.encode(), msg.encode(), sha256).hexdigest()` (line 74). -/
def buildOrderRequest (sign : String → String → String)
    (secretKey apiKey symbol quantity timestamp : String) : OrderRequest :=
  let params := orderBaseParams symbol quantity timestamp
  let query_string := urlencode params
  let signature := sign secretKey query_string
  { url := BASE_URL ++ "/api/v3/order",
    params := setA params "signature" signature,
    headerApiKey := apiKey,
    timeout := 10 }

/-- The observable outcome of `requests.post(...)` followed by
`response.json()` (lines 81-82): either some step raised (network failure,
timeout, non-JSON body) or a JSON object was obtained. -/
inductive ApiOutcome where
  | raised
  | response (fields : List (String × String))

/-- The embedding of `place_market_order` (lines 56-93): build the signed
request, submit it through the abstract HTTP layer `net`, and return `True`
exactly when the JSON object contains `orderId` (lines 84-85); an error
payload returns `False` (lines 88-89) and any raised exception is caught by
its own catch-all `except`, which returns `False` (lines 91-93),
so the caller never sees an exception. -/
def place_market_order (sign : String → String → String)
    (net : OrderRequest → ApiOutcome)
    (secretKey apiKey symbol quantity timestamp : String) : Bool :=
  match net (buildOrderRequest sign secretKey apiKey symbol quantity timestamp) with
  | .raised => false
  | .response fields => (lookupA fields "orderId").isSome

/-- C6: `place_market_order` returns success exactly when the exchange
response is a JSON object containing an order-identifier field; every other
outcome — an error payload without `orderId`, or any raised exception
(network failure, timeout, non-JSON body) — yields `false`, and the
function is total, never propagating an exception. -/
theorem C6_success_iff_orderId (sign : String → String → String)
    (net : OrderRequest → ApiOutcome)
    (secretKey apiKey symbol quantity timestamp : String) :
    place_market_order sign net secretKey apiKey symbol quantity timestamp = true ↔
      ∃ fields,
        net (buildOrderRequest sign secretKey apiKey symbol quantity timestamp)
          = ApiOutcome.response fields ∧
        (lookupA fields "orderId").isSome = true := by
  unfold place_market_order
  cases hn : net (buildOrderRequest sign secretKey apiKey symbol quantity timestamp) with
  | raised => simp
  | response fields => simp

/-- C8: the HMAC signature is computed with the shared secret over the
query string of exactly the parameters symbol, side, type, quoteOrderQty,
timestamp in that canonical (insertion) order; the signature parameter
itself is not among the signed parameters, it is appended to the submitted
parameters afterwards; and the request timeout is at most 10 seconds. -/
theorem C8_signature_and_timeout (sign : String → String → String)
    (secretKey apiKey symbol quantity timestamp : String) :
    (orderBaseParams symbol quantity timestamp).map Prod.fst
      = ["symbol", "side", "type", "quoteOrderQty", "timestamp"] ∧
    "signature" ∉ (orderBaseParams symbol quantity timestamp).map Prod.fst ∧
    lookupA (buildOrderRequest sign secretKey apiKey symbol quantity
        timestamp).params "signature"
      = some (sign secretKey (urlencode (orderBaseParams symbol quantity
          timestamp))) ∧
    (buildOrderRequest sign secretKey apiKey symbol quantity timestamp).timeout
      ≤ 10 := by
  refine ⟨rfl,
    by simp only [orderBaseParams, List.map_cons, List.map_nil]; decide,
    ?_, Nat.le_refl 10⟩
  simp only [buildOrderRequest]
  exact lookupA_setA_self _ _ _

/-- One subscribe control frame (lines 153-156). -/
structure SubscribeMsg where
  method : String
  params : List String
deriving DecidableEq, Repr

/-- The embedding of `on_open` (lines 144-165): set `ws_connected`, build
one stream identifier per watched symbol (line 150), and send a single
SUBSCRIPTION frame when the list is nonempty (Python truthiness
`if streams:`), nothing otherwise. -/
def on_open (st : BotState) : BotState × Option SubscribeMsg :=
  let st1 : BotState := ⟨st.SNIPE_LIST, st.active_orders, true⟩
  let streams := st.SNIPE_LIST.map fun p => p.1.toLower ++ "@24hrTicker"
  if streams.isEmpty then (st1, none)
  else (st1, some ⟨"SUBSCRIPTION", streams⟩)

/-- C9: on connection open, if the watch list is empty no subscribe frame
is sent and the connection stays open (`ws_connected` is set); otherwise
exactly one SUBSCRIPTION frame is sent whose stream list has, position by
position, the identifier `lowercase(symbol) ++ "@24hrTicker"` for each
watched symbol and nothing else. -/
theorem C9_one_subscription_frame (st : BotState) :
    (on_open st).1.ws_connected = true ∧
    (st.SNIPE_LIST = [] → (on_open st).2 = none) ∧
    (st.SNIPE_LIST ≠ [] → ∃ msg, (on_open st).2 = some msg ∧
      msg.method = "SUBSCRIPTION" ∧
      ∀ i : Nat, msg.params[i]? =
        (st.SNIPE_LIST[i]?.map fun p => p.1.toLower ++ "@24hrTicker")) := by
  refine ⟨?_, ?_, ?_⟩
  · simp only [on_open]
    by_cases h : (st.SNIPE_LIST.map fun p => p.1.toLower ++ "@24hrTicker").isEmpty
    · simp [h]
    · simp [h]
  · intro h
    simp [on_open, h]
  · intro h
    have hne : ¬ (st.SNIPE_LIST.map
        fun p => p.1.toLower ++ "@24hrTicker").isEmpty = true := by
      simp [List.isEmpty_iff, h]
    simp only [on_open, hne, if_neg, Bool.not_eq_true]
    refine ⟨⟨"SUBSCRIPTION",
      st.SNIPE_LIST.map fun p => p.1.toLower ++ "@24hrTicker"⟩, ?_, rfl, ?_⟩
    · simp [hne]
    · intro i
      simp [List.getElem?_map]

/-- Witness for C9 at concrete inputs: an empty watch list sends nothing;
the one-entry list `{ABCUSDT: 5}` sends one frame whose stream list is
exactly the lowercased symbol with the ticker suffix. -/
theorem C9_witness :
    (on_open ⟨[], [], false⟩).2 = none ∧
    ∃ msg, (on_open ⟨[("ABCUSDT", 5)], [], false⟩).2 = some msg ∧
      msg.method = "SUBSCRIPTION" ∧
      ∀ i : Nat, msg.params[i]? =
        ((⟨[("ABCUSDT", 5)], [], false⟩ : BotState).SNIPE_LIST[i]?.map
          fun p => p.1.toLower ++ "@24hrTicker") :=
  ⟨(C9_one_subscription_frame ⟨[], [], false⟩).2.1 rfl,
   (C9_one_subscription_frame ⟨[("ABCUSDT", 5)], [], false⟩).2.2 (by decide)⟩

end SniperBot
